import Mathlib

/-!
Verification of the curry decorators from `currier.py` / `currier_pt.py` and of
the Y-combinator decorator from `decoradorY_pt.py`.

Python function values are defunctionalised into the inductive `Val`: every
closure created by the source code (`get_one_arg`, `get_other_args`,
`func_with_last_applied`, `get_last_arg`, `func_auto_aplicada`, `nova_func`,
the body of `fact`, ...) becomes a constructor carrying its captured
environment.  Opaque target functions are `Val.target arity id`; their bodies
are supplied by an oracle `body : Nat → List Val → Except PyErr Val` which the
interpreter consults only when the call supplies exactly `arity` positional
arguments — just as CPython checks positional-argument counts before entering
a function body.

`call body fuel f args` is a fuel-indexed interpreter.  Besides the result
(`Except.error` models a raised exception) it returns how many times a target
body was executed during the evaluation, so that frame conditions such as
"the target body runs exactly once" are provable.  `PyErr.isTypeError`
reflects Python's exception-class test performed by `except TypeError` in
`curry` (`currier.py`, line 516): the arity errors, `unsupportedOperand` and
`notCallable` are all instances of Python's `TypeError` class, while
`otherError` stands for any exception of a different class.
-/

/-- Python exceptions, classified the way the source code observes them. -/
inductive PyErr : Type where
  /-- TypeError: `f() missing k required positional arguments`; the string
  records the name of the function reported in the message. -/
  | missingArgs : String → PyErr
  /-- TypeError: `f() takes n positional arguments but m were given`. -/
  | tooManyArgs : String → PyErr
  /-- TypeError: `'int' object is not callable`. -/
  | notCallable : PyErr
  /-- TypeError: `unsupported operand type(s)`, e.g. subtracting from or
  multiplying by a function value inside `fact`. -/
  | unsupportedOperand : PyErr
  /-- Any exception whose class is not `TypeError`; the tag distinguishes
  concrete exceptions so that verbatim propagation is expressible. -/
  | otherError : Nat → PyErr

/-- Python's `except TypeError` matches an exception by class.  All arity
errors, `notCallable` and `unsupportedOperand` are `TypeError`s. -/
def PyErr.isTypeError : PyErr → Bool
  | .otherError _ => false
  | _ => true

/-- Defunctionalised Python values: integers and every closure shape created
by the three source files, each carrying its captured environment. -/
inductive Val : Type where
  /-- An integer value. -/
  | int : Int → Val
  /-- An opaque target function of declared positional arity `arity`; its
  body is the oracle entry `id`. -/
  | target : (arity : Nat) → (id : Nat) → Val
  /-- `get_fst_arg` closure returned by `fst_arg_curry(func)`
  (`currier.py`, lines 191-201). -/
  | get_fst_arg : (func : Val) → Val
  /-- `get_other_args` closure (variadic `*args`) created by
  `get_fst_arg(x)`; captures `uncurried_func` and `x`. -/
  | get_other_args : (func : Val) → (x : Val) → Val
  /-- `func_with_last_applied` closure (variadic `*args`) returned by
  `curry_last(func)` (`currier.py`, lines 336-345); identical to
  `func_sem_ultimo` from `curry_ultimo` (`currier_pt.py`, lines 340-349). -/
  | func_with_last_applied : (func : Val) → Val
  /-- `get_last_arg` closure created by `func_with_last_applied(*args)`;
  captures `func` and the tuple `args` (`recebe_ultimo` in the pt file). -/
  | get_last_arg : (func : Val) → (args : List Val) → Val
  /-- `get_one_arg` closure returned by `curry(func)`
  (`currier.py`, lines 511-520). -/
  | get_one_arg : (func : Val) → Val
  /-- `func_auto_aplicada` closure returned by `auto_aplicador(func)`
  (`decoradorY_pt.py`, lines 143-148). -/
  | func_auto_aplicada : (func : Val) → Val
  /-- `nova_func` closure returned by `auto_aplica_func_interna(func)`
  (`decoradorY_pt.py`, lines 263-271). -/
  | nova_func : (func : Val) → Val
  /-- The two-parameter factorial functional `fact(rec, n)` from
  `decoradorY_pt.py`, lines 323-329 (before decoration). -/
  | fact : Val

/-- `numero_de_parametros(func)` from `currier_pt.py`, lines 448-453:
`len(signature(func).parameters)`.  A `*args` parameter counts as one
parameter, which is why the variadic closures report 1.  `inspect.signature`
of a non-callable raises; we return 0 for `int`, a case no claim exercises. -/
def numero_de_parametros : Val → Nat
  | .int _ => 0
  | .target a _ => a
  | .get_fst_arg _ => 1
  | .get_other_args _ _ => 1
  | .func_with_last_applied _ => 1
  | .get_last_arg _ _ => 1
  | .get_one_arg _ => 1
  | .func_auto_aplicada _ => 1
  | .nova_func _ => 2
  | .fact => 2

/-- Whether the value's declared parameter list is a variadic `*args`
(such a function accepts any number of positional arguments). -/
def isVariadic : Val → Bool
  | .get_other_args _ _ => true
  | .func_with_last_applied _ => true
  | _ => false

/-- `fst_arg_curry(uncurried_func)` (`currier.py`, lines 191-201): returns the
`get_fst_arg` closure. -/
def fst_arg_curry (func : Val) : Val := .get_fst_arg func

/-- `curry(func)` (`currier.py`, lines 511-520, Strategy A): returns the
`get_one_arg` closure. -/
def curry (func : Val) : Val := .get_one_arg func

/-- `curry_last(func)` (`currier.py`, lines 336-345): returns the
`func_with_last_applied` closure. -/
def curry_last (func : Val) : Val := .func_with_last_applied func

/-- `curry_ultimo(func)` (`currier_pt.py`, lines 340-349): textually identical
to `curry_last`, returning the same closure shape. -/
def curry_ultimo (func : Val) : Val := .func_with_last_applied func

/-- `curry_n_args(n, func)` (`currier.py`, lines 381-386): applies
`curry_last` to `func` `n - 1` times. -/
def curry_n_args (n : Nat) (func : Val) : Val := curry_last^[n - 1] func

/-- `curry_tudo(func)` (`currier_pt.py`, lines 460-467, Strategy B): reads the
arity by introspection and applies `curry_ultimo` that many times minus one. -/
def curry_tudo (func : Val) : Val := curry_ultimo^[numero_de_parametros func - 1] func

/-- `auto_aplicador(func)` (`decoradorY_pt.py`, lines 143-148). -/
def auto_aplicador (func : Val) : Val := .func_auto_aplicada func

/-- `auto_aplica_func_interna(func)` (`decoradorY_pt.py`, lines 263-271). -/
def auto_aplica_func_interna (func : Val) : Val := .nova_func func

/-- `decorador_y(func)` (`decoradorY_pt.py`, lines 320-321):
`auto_aplicador(auto_aplica_func_interna(func))`. -/
def decorador_y (func : Val) : Val := auto_aplicador (auto_aplica_func_interna func)

/-- Fuel-indexed interpreter.  `call body n f args` evaluates the Python call
`f(*args)`; `none` means the fuel ran out.  On `some (r, c)`, `r` is the
returned value or the raised exception and `c` counts how many times a
`target` body (an oracle entry) was executed during the evaluation. -/
def call (body : Nat → List Val → Except PyErr Val) :
    Nat → Val → List Val → Option (Except PyErr Val × Nat)
  | 0, _, _ => none
  | _ + 1, .int _, _ => some (.error .notCallable, 0)
  | _ + 1, .target a i, args =>
      if args.length < a then some (.error (.missingArgs "func"), 0)
      else if a < args.length then some (.error (.tooManyArgs "func"), 0)
      else some (body i args, 1)
  | _ + 1, .get_fst_arg _, [] => some (.error (.missingArgs "get_fst_arg"), 0)
  | _ + 1, .get_fst_arg func, [x] => some (.ok (.get_other_args func x), 0)
  | _ + 1, .get_fst_arg _, _ :: _ :: _ => some (.error (.tooManyArgs "get_fst_arg"), 0)
  | n + 1, .get_other_args func x, args => call body n func (x :: args)
  | _ + 1, .func_with_last_applied func, args => some (.ok (.get_last_arg func args), 0)
  | _ + 1, .get_last_arg _ _, [] => some (.error (.missingArgs "get_last_arg"), 0)
  | n + 1, .get_last_arg func cargs, [arg] => call body n func (cargs ++ [arg])
  | _ + 1, .get_last_arg _ _, _ :: _ :: _ => some (.error (.tooManyArgs "get_last_arg"), 0)
  | _ + 1, .get_one_arg _, [] => some (.error (.missingArgs "get_one_arg"), 0)
  | n + 1, .get_one_arg func, [arg] =>
      match call body n func [arg] with
      | none => none
      | some (.ok v, c) => some (.ok v, c)
      | some (.error e, c) =>
          if e.isTypeError then
            match call body n (fst_arg_curry func) [arg] with
            | none => none
            | some (.ok applied_one_arg, c2) => some (.ok (curry applied_one_arg), c + c2)
            | some (.error e2, c2) => some (.error e2, c + c2)
          else some (.error e, c)
  | _ + 1, .get_one_arg _, _ :: _ :: _ => some (.error (.tooManyArgs "get_one_arg"), 0)
  | _ + 1, .func_auto_aplicada _, [] => some (.error (.missingArgs "func_auto_aplicada"), 0)
  | n + 1, .func_auto_aplicada func, [param] => call body n func [func, param]
  | _ + 1, .func_auto_aplicada _, _ :: _ :: _ =>
      some (.error (.tooManyArgs "func_auto_aplicada"), 0)
  | _ + 1, .nova_func _, [] => some (.error (.missingArgs "nova_func"), 0)
  | _ + 1, .nova_func _, [_] => some (.error (.missingArgs "nova_func"), 0)
  | n + 1, .nova_func func, [func_param, t] => call body n func [auto_aplicador func_param, t]
  | _ + 1, .nova_func _, _ :: _ :: _ :: _ => some (.error (.tooManyArgs "nova_func"), 0)
  | _ + 1, .fact, [] => some (.error (.missingArgs "fact"), 0)
  | _ + 1, .fact, [_] => some (.error (.missingArgs "fact"), 0)
  | n + 1, .fact, [recf, t] =>
      match t with
      | .int m =>
          if m = 0 then some (.ok (.int 1), 0)
          else
            match call body n recf [.int (m - 1)] with
            | none => none
            | some (.ok (.int r), c) => some (.ok (.int (m * r)), c)
            | some (.ok _, c) => some (.error .unsupportedOperand, c)
            | some (.error e, c) => some (.error e, c)
      | _ => some (.error .unsupportedOperand, 0)
  | _ + 1, .fact, _ :: _ :: _ :: _ => some (.error (.tooManyArgs "fact"), 0)

/-- Supplying a list of arguments one value per call, as in `h(1)(2)(3)(4)`.
Each top-level call receives the same fuel `n`; the body-execution counts of
the individual calls are added up. -/
def applyChain (body : Nat → List Val → Except PyErr Val) (n : Nat) (f : Val) :
    List Val → Option (Except PyErr Val × Nat)
  | [] => some (.ok f, 0)
  | a :: rest =>
      match call body n f [a] with
      | none => none
      | some (.error e, c) => some (.error e, c)
      | some (.ok g, c) =>
          match applyChain body n g rest with
          | none => none
          | some (r, c2) => some (r, c + c2)

/-- `call` converges to some result within some fuel, together with its
body-execution count. -/
def Run (body : Nat → List Val → Except PyErr Val) (f : Val) (args : List Val)
    (r : Except PyErr Val × Nat) : Prop :=
  ∃ n, call body n f args = some r

/-- `applyChain` converges to some result within some fuel. -/
def RunChain (body : Nat → List Val → Except PyErr Val) (f : Val) (args : List Val)
    (r : Except PyErr Val × Nat) : Prop :=
  ∃ n, applyChain body n f args = some r

/-- A 4-ary integer adder, the target used in the source's own assertions
(`add_4` in `currier.py`, `soma_4_curried_tudo` in `currier_pt.py`). -/
def bodyAdd4 : Nat → List Val → Except PyErr Val := fun _ args =>
  match args with
  | [.int a, .int b, .int c, .int d] => .ok (.int (a + b + c + d))
  | _ => .error .unsupportedOperand

/-- The accumulated-argument closure of Strategy A: `bound.foldl` of
`get_other_args` layers around the target, as built up by repeated
`fst_arg_curry(func)(arg)` steps inside `curry`. -/
def boundClos (t : Val) (bound : List Val) : Val :=
  bound.foldl (fun g v => .get_other_args g v) t

/-- What the `try`/`except TypeError` of `get_one_arg` makes of the trial
invocation's outcome: a returned value is passed through, a `TypeError` is
converted into the next curry stage, any other exception is re-raised. -/
def finishA (res : Except PyErr Val) (wnext : Val) : Except PyErr Val :=
  match res with
  | .ok w => .ok w
  | .error e => if e.isTypeError then .ok wnext else .error e

/-- The Strategy A wrapper holding `bound` previously-supplied arguments:
`curry` wrapped around the accumulated variadic closure. -/
def stateA (t : Val) (bound : List Val) : Val := curry (boundClos t bound)

/-- The Strategy B wrapper holding `bound` previously-supplied arguments:
the decoration-time value is `curry_ultimo` iterated `A - 1` times over the
target, and each supplied argument peels one `func_with_last_applied` layer
into a `get_last_arg` closure capturing the argument tuple so far. -/
def stateB (A : Nat) (t : Val) (bound : List Val) : Val :=
  match bound with
  | [] => curry_ultimo^[A - 1] t
  | _ :: _ => .get_last_arg (curry_ultimo^[A - 1 - bound.length] t) bound

/-- A 1-ary target whose body raises a `TypeError` (e.g. a wrong value type,
such as `1 + 'a'`). -/
def bodyTypeErr : Nat → List Val → Except PyErr Val := fun _ _ => .error .unsupportedOperand

/-- A 1-ary target whose body raises an exception that is not a `TypeError`
(tag 7 identifies it). -/
def bodyOtherErr : Nat → List Val → Except PyErr Val := fun _ _ => .error (.otherError 7)

example : call bodyAdd4 6 (curry (.target 4 0)) [.int 1] =
    some (.ok (curry (.get_other_args (.target 4 0) (.int 1))), 0) := rfl

example : applyChain bodyAdd4 8 (curry (.target 4 0)) [.int 1, .int 2, .int 3, .int 4] =
    some (.ok (.int 10), 1) := rfl

example : applyChain bodyAdd4 8 (curry_tudo (.target 4 0)) [.int 1, .int 2, .int 3, .int 4] =
    some (.ok (.int 10), 1) := rfl

example : call bodyAdd4 20 (decorador_y .fact) [.int 5] = some (.ok (.int 120), 0) := rfl

/-- Adding fuel never changes a result that already converged. -/
theorem call_mono_succ (body : Nat → List Val → Except PyErr Val) :
    ∀ (n : Nat) (f : Val) (args : List Val) (r : Except PyErr Val × Nat),
      call body n f args = some r → call body (n + 1) f args = some r := by
  intro n
  induction n with
  | zero => intro f args r h; simp [call] at h
  | succ n ih =>
    intro f args r h
    cases f with
    | int i => exact h
    | target a i => exact h
    | get_fst_arg func =>
      rcases args with _ | ⟨a, _ | ⟨b, rest⟩⟩ <;> exact h
    | get_other_args func x =>
      simp only [call] at h ⊢
      exact ih func (x :: args) r h
    | func_with_last_applied func => exact h
    | get_last_arg func cargs =>
      rcases args with _ | ⟨a, _ | ⟨b, rest⟩⟩
      · exact h
      · simp only [call] at h ⊢
        exact ih func (cargs ++ [a]) r h
      · exact h
    | get_one_arg func =>
      rcases args with _ | ⟨a, _ | ⟨b, rest⟩⟩
      · exact h
      · simp only [call] at h ⊢
        rcases hc : call body n func [a] with _ | ⟨rv, c⟩
        · simp [hc] at h
        · have hc' := ih func [a] (rv, c) hc
          simp only [hc']
          simp only [hc] at h
          cases rv with
          | ok v => exact h
          | error e =>
            cases he : e.isTypeError with
            | false => simp only [he] at h ⊢; simpa using h
            | true =>
              simp only [he] at h ⊢
              cases n with
              | zero => simp [call] at hc
              | succ k =>
                simp only [call, fst_arg_curry] at h ⊢
                simpa using h
      · exact h
    | func_auto_aplicada func =>
      rcases args with _ | ⟨a, _ | ⟨b, rest⟩⟩
      · exact h
      · simp only [call] at h ⊢
        exact ih func [func, a] r h
      · exact h
    | nova_func func =>
      rcases args with _ | ⟨a, _ | ⟨b, _ | ⟨c, rest⟩⟩⟩
      · exact h
      · exact h
      · simp only [call] at h ⊢
        exact ih func [auto_aplicador a, b] r h
      · exact h
    | fact =>
      rcases args with _ | ⟨a, _ | ⟨b, _ | ⟨c, rest⟩⟩⟩
      · exact h
      · exact h
      · cases b with
        | int m =>
          simp only [call] at h ⊢
          by_cases hm : m = 0
          · simp only [hm, if_pos rfl] at h ⊢; exact h
          · simp only [if_neg hm] at h ⊢
            rcases hc : call body n a [.int (m - 1)] with _ | ⟨rv, c⟩
            · simp [hc] at h
            · have hc' := ih a [.int (m - 1)] (rv, c) hc
              simp only [hc']
              simp only [hc] at h
              cases rv with
              | ok v => cases v <;> exact h
              | error e => exact h
        | target u v => exact h
        | get_fst_arg u => exact h
        | get_other_args u v => exact h
        | func_with_last_applied u => exact h
        | get_last_arg u v => exact h
        | get_one_arg u => exact h
        | func_auto_aplicada u => exact h
        | nova_func u => exact h
        | fact => exact h
      · exact h

/-- Fuel monotonicity of the interpreter. -/
theorem call_mono (body : Nat → List Val → Except PyErr Val) {f : Val} {args : List Val}
    {r : Except PyErr Val × Nat} {n m : Nat} (hnm : n ≤ m)
    (h : call body n f args = some r) : call body m f args = some r := by
  induction hnm with
  | refl => exact h
  | step _ ih => exact call_mono_succ body _ _ _ _ ih

/-- Fuel monotonicity of one-argument-at-a-time application. -/
theorem applyChain_mono (body : Nat → List Val → Except PyErr Val) :
    ∀ (vs : List Val) (f : Val) (r : Except PyErr Val × Nat) {n m : Nat}, n ≤ m →
      applyChain body n f vs = some r → applyChain body m f vs = some r := by
  intro vs
  induction vs with
  | nil => intro f r n m _ h; exact h
  | cons a rest ih =>
    intro f r n m hnm h
    simp only [applyChain] at h ⊢
    rcases hc : call body n f [a] with _ | ⟨rv, c⟩
    · simp [hc] at h
    · have hc' := call_mono body hnm hc
      simp only [hc']
      simp only [hc] at h
      cases rv with
      | error e => exact h
      | ok g =>
        rcases hrest : applyChain body n g rest with _ | ⟨res, c2⟩
        · simp [hrest] at h
        · have hrest' := ih g (res, c2) hnm hrest
          simp only [hrest']
          simp only [hrest] at h
          exact h

/-- One evaluation step of the variadic `get_other_args` closure:
`get_other_args(*args)` returns `uncurried_func(x, *args)`. -/
theorem run_get_other_args {body : Nat → List Val → Except PyErr Val} {func x : Val}
    {args : List Val} {r : Except PyErr Val × Nat} :
    Run body (.get_other_args func x) args r ↔ Run body func (x :: args) r := by
  constructor
  · rintro ⟨n, hn⟩
    cases n with
    | zero => simp [call] at hn
    | succ k => exact ⟨k, hn⟩
  · rintro ⟨n, hn⟩
    exact ⟨n + 1, hn⟩

/-- One evaluation step of `get_last_arg(arg)`: returns `func(*args, arg)`. -/
theorem run_get_last_arg {body : Nat → List Val → Except PyErr Val} {func : Val}
    {cargs : List Val} {a : Val} {r : Except PyErr Val × Nat}
    (h : Run body func (cargs ++ [a]) r) : Run body (.get_last_arg func cargs) [a] r := by
  obtain ⟨n, hn⟩ := h
  exact ⟨n + 1, hn⟩

/-- One evaluation step of the variadic `func_with_last_applied(*args)`:
it just allocates the `get_last_arg` closure. -/
theorem run_func_with_last_applied {body : Nat → List Val → Except PyErr Val}
    (func : Val) (args : List Val) :
    Run body (.func_with_last_applied func) args (.ok (.get_last_arg func args), 0) :=
  ⟨1, rfl⟩

/-- One evaluation step of `func_auto_aplicada(param)`: returns
`func(func, param)`. -/
theorem run_func_auto_aplicada {body : Nat → List Val → Except PyErr Val} {func a : Val}
    {r : Except PyErr Val × Nat} :
    Run body (.func_auto_aplicada func) [a] r ↔ Run body func [func, a] r := by
  constructor
  · rintro ⟨n, hn⟩
    cases n with
    | zero => simp [call] at hn
    | succ k => exact ⟨k, hn⟩
  · rintro ⟨n, hn⟩
    exact ⟨n + 1, hn⟩

/-- One evaluation step of `nova_func(func_param, t)`: returns
`func(auto_aplicador(func_param), t)`. -/
theorem run_nova_func {body : Nat → List Val → Except PyErr Val} {func g t : Val}
    {r : Except PyErr Val × Nat} :
    Run body (.nova_func func) [g, t] r ↔ Run body func [auto_aplicador g, t] r := by
  constructor
  · rintro ⟨n, hn⟩
    cases n with
    | zero => simp [call] at hn
    | succ k => exact ⟨k, hn⟩
  · rintro ⟨n, hn⟩
    exact ⟨n + 1, hn⟩

/-- Calling the opaque target with exactly its arity executes the body once. -/
theorem run_target_exact {body : Nat → List Val → Except PyErr Val} {A i : Nat}
    {args : List Val} (h : args.length = A) :
    Run body (.target A i) args (body i args, 1) := by
  refine ⟨1, ?_⟩
  show (if args.length < A then some (.error (.missingArgs "func"), 0)
        else if A < args.length then some (.error (.tooManyArgs "func"), 0)
        else some (body i args, 1)) = some (body i args, 1)
  rw [if_neg (by omega), if_neg (by omega)]

/-- Calling the opaque target with too few arguments raises the arity
`TypeError` without executing the body. -/
theorem run_target_missing {body : Nat → List Val → Except PyErr Val} {A i : Nat}
    {args : List Val} (h : args.length < A) :
    Run body (.target A i) args (.error (.missingArgs "func"), 0) := by
  refine ⟨1, ?_⟩
  show (if args.length < A then some (.error (.missingArgs "func"), 0)
        else if A < args.length then some (.error (.tooManyArgs "func"), 0)
        else some (body i args, 1)) = some (.error (.missingArgs "func"), 0)
  rw [if_pos h]

theorem boundClos_append (t : Val) (bound : List Val) (v : Val) :
    boundClos t (bound ++ [v]) = .get_other_args (boundClos t bound) v := by
  simp [boundClos]

/-- Calling the accumulated closure forwards to the target with the bound
arguments prepended. -/
theorem run_boundClos {body : Nat → List Val → Except PyErr Val} :
    ∀ (bound : List Val) (t : Val) (args : List Val) (r : Except PyErr Val × Nat),
      Run body (boundClos t bound) args r ↔ Run body t (bound ++ args) r := by
  intro bound
  induction bound with
  | nil => intro t args r; exact Iff.rfl
  | cons v bs ih =>
    intro t args r
    have hshape : boundClos t (v :: bs) = boundClos (.get_other_args t v) bs := rfl
    rw [hshape, ih, run_get_other_args]
    exact Iff.rfl

/-- Full dynamics of one `get_one_arg(arg)` call in terms of the trial
invocation `func(arg)`. -/
theorem run_get_one_arg {body : Nat → List Val → Except PyErr Val} {func a : Val}
    {r : Except PyErr Val} {c : Nat} (h : Run body func [a] (r, c)) :
    Run body (.get_one_arg func) [a] (finishA r (curry (.get_other_args func a)), c) := by
  obtain ⟨n, hn⟩ := h
  have hn' : call body (n + 1) func [a] = some (r, c) :=
    call_mono_succ body n func [a] (r, c) hn
  refine ⟨n + 1 + 1, ?_⟩
  cases r with
  | ok v => simp [call, hn', finishA]
  | error e =>
    cases he : e.isTypeError with
    | false => simp [call, hn', finishA, he]
    | true => simp [call, hn', finishA, he, fst_arg_curry, curry]

theorem runChain_nil {body : Nat → List Val → Except PyErr Val} (f : Val) :
    RunChain body f [] (.ok f, 0) :=
  ⟨0, rfl⟩

theorem runChain_single {body : Nat → List Val → Except PyErr Val} {f a : Val}
    {r : Except PyErr Val} {c : Nat} (h : Run body f [a] (r, c)) :
    RunChain body f [a] (r, c) := by
  obtain ⟨n, hn⟩ := h
  refine ⟨n, ?_⟩
  cases r with
  | ok v => simp [applyChain, hn]
  | error e => simp [applyChain, hn]

theorem runChain_cons {body : Nat → List Val → Except PyErr Val} {f a g : Val}
    {c : Nat} {rest : List Val} {res : Except PyErr Val} {c2 : Nat}
    (h1 : Run body f [a] (.ok g, c)) (h2 : RunChain body g rest (res, c2)) :
    RunChain body f (a :: rest) (res, c + c2) := by
  obtain ⟨n1, hn1⟩ := h1
  obtain ⟨n2, hn2⟩ := h2
  refine ⟨max n1 n2, ?_⟩
  have hc : call body (max n1 n2) f [a] = some (.ok g, c) :=
    call_mono body (Nat.le_max_left n1 n2) hn1
  have hr : applyChain body (max n1 n2) g rest = some (res, c2) :=
    applyChain_mono body rest g (res, c2) (Nat.le_max_right n1 n2) hn2
  simp [applyChain, hc, hr]

theorem runChain_cons_err {body : Nat → List Val → Except PyErr Val} {f a : Val}
    {c : Nat} {rest : List Val} {e : PyErr}
    (h : Run body f [a] (.error e, c)) : RunChain body f (a :: rest) (.error e, c) := by
  obtain ⟨n, hn⟩ := h
  exact ⟨n, by simp [applyChain, hn]⟩

theorem curry_eq_stateA_nil (t : Val) : curry t = stateA t [] := rfl

/-- Strategy A, trial fails on arity: with fewer than `A` accumulated
arguments the wrapper returns the next wrapper and no target body runs. -/
theorem stepA_incomplete {body : Nat → List Val → Except PyErr Val} {A i : Nat}
    {bound : List Val} {a : Val} (h : bound.length + 1 < A) :
    Run body (stateA (.target A i) bound) [a]
      (.ok (stateA (.target A i) (bound ++ [a])), 0) := by
  have htrial : Run body (boundClos (.target A i) bound) [a]
      (.error (.missingArgs "func"), 0) :=
    (run_boundClos bound _ _ _).mpr (run_target_missing (by simp; omega))
  have hstep := run_get_one_arg htrial
  simpa [finishA, PyErr.isTypeError, stateA, boundClos_append] using hstep

/-- Strategy A, trial succeeds on arity: with `A` total arguments the target
body runs exactly once and the `try`/`except` decides what is returned. -/
theorem stepA_complete {body : Nat → List Val → Except PyErr Val} {A i : Nat}
    {bound : List Val} {a : Val} (h : bound.length + 1 = A) :
    Run body (stateA (.target A i) bound) [a]
      (finishA (body i (bound ++ [a])) (stateA (.target A i) (bound ++ [a])), 1) := by
  have htrial : Run body (boundClos (.target A i) bound) [a] (body i (bound ++ [a]), 1) :=
    (run_boundClos bound _ _ _).mpr (run_target_exact (by simp; omega))
  have hstep := run_get_one_arg htrial
  simpa [stateA, boundClos_append] using hstep

/-- Master lemma for Strategy A: from a wrapper with `bound` accumulated
arguments, feeding the remaining arguments one at a time executes the target
body exactly once and returns what the final `try`/`except` decides. -/
theorem chainA {body : Nat → List Val → Except PyErr Val} {A i : Nat} :
    ∀ (rest bound : List Val), rest ≠ [] → bound.length + rest.length = A →
    RunChain body (stateA (.target A i) bound) rest
      (finishA (body i (bound ++ rest)) (stateA (.target A i) (bound ++ rest)), 1) := by
  intro rest
  induction rest with
  | nil => intro bound hne _; exact absurd rfl hne
  | cons a rest ih =>
    intro bound _ hlen
    cases rest with
    | nil =>
      have hstep := @stepA_complete body A i bound a (by simpa using hlen)
      exact runChain_single hstep
    | cons b rest2 =>
      have hstep := @stepA_incomplete body A i bound a (by simp at hlen; omega)
      have htail := ih (bound ++ [a]) (by simp) (by simp at hlen ⊢; omega)
      have hcomp := runChain_cons hstep htail
      simpa using hcomp

/-- Prefix lemma for Strategy A: any proper prefix of the arguments produces
the corresponding wrapper and executes no target body at all. -/
theorem chainA_take {body : Nat → List Val → Except PyErr Val} {A i : Nat} :
    ∀ (p bound : List Val), bound.length + p.length < A →
    RunChain body (stateA (.target A i) bound) p
      (.ok (stateA (.target A i) (bound ++ p)), 0) := by
  intro p
  induction p with
  | nil => intro bound _; simpa using @runChain_nil body (stateA (.target A i) bound)
  | cons a rest ih =>
    intro bound h
    have hstep := @stepA_incomplete body A i bound a (by simp at h; omega)
    have htail := ih (bound ++ [a]) (by simp at h ⊢; omega)
    have hcomp := runChain_cons hstep htail
    simpa using hcomp

theorem curry_ultimo_iterate_succ (j : Nat) (t : Val) :
    curry_ultimo^[j + 1] t = .func_with_last_applied (curry_ultimo^[j] t) := by
  rw [Function.iterate_succ_apply']
  rfl

theorem curry_tudo_eq_stateB_nil (A i : Nat) :
    curry_tudo (.target A i) = stateB A (.target A i) [] := rfl

/-- Strategy B, fewer than `A` total arguments: one more argument produces
the next wrapper; no target body runs. -/
theorem stepB_incomplete {body : Nat → List Val → Except PyErr Val} {A : Nat} {t : Val}
    {bound : List Val} {a : Val} (h : bound.length + 1 < A) :
    Run body (stateB A t bound) [a] (.ok (stateB A t (bound ++ [a])), 0) := by
  cases bound with
  | nil =>
    have h1 : A - 1 = (A - 1 - 1) + 1 := by omega
    show Run body (curry_ultimo^[A - 1] t) [a] _
    rw [h1, curry_ultimo_iterate_succ]
    have hrun := @run_func_with_last_applied body (curry_ultimo^[A - 1 - 1] t) [a]
    simpa [stateB] using hrun
  | cons x bs =>
    refine run_get_last_arg ?_
    have h1 : A - 1 - (x :: bs).length = (A - 1 - ((x :: bs) ++ [a]).length) + 1 := by
      simp at h ⊢; omega
    rw [h1, curry_ultimo_iterate_succ]
    have hrun := @run_func_with_last_applied body
      (curry_ultimo^[A - 1 - ((x :: bs) ++ [a]).length] t) ((x :: bs) ++ [a])
    simpa [stateB] using hrun

/-- Strategy B, the `A`-th argument: the target body runs once and its
result (or exception) is returned as is, nothing is caught. -/
theorem stepB_complete {body : Nat → List Val → Except PyErr Val} {A i : Nat}
    {bound : List Val} {a : Val} (h : bound.length + 1 = A) :
    Run body (stateB A (.target A i) bound) [a] (body i (bound ++ [a]), 1) := by
  cases bound with
  | nil =>
    have h1 : (1 : Nat) = A := by simpa using h
    have h0 : A - 1 = 0 := by omega
    show Run body (curry_ultimo^[A - 1] (.target A i)) [a] _
    rw [h0]
    simpa using @run_target_exact body A i [a] (by simp; omega)
  | cons x bs =>
    refine run_get_last_arg ?_
    have h0 : A - 1 - (x :: bs).length = 0 := by simp at h ⊢; omega
    rw [h0]
    simpa using @run_target_exact body A i ((x :: bs) ++ [a]) (by simp at h ⊢; omega)

/-- Master lemma for Strategy B: from a wrapper with `bound` accumulated
arguments, feeding the remaining arguments one at a time executes the target
body exactly once and propagates its result or exception unchanged. -/
theorem chainB {body : Nat → List Val → Except PyErr Val} {A i : Nat} :
    ∀ (rest bound : List Val), rest ≠ [] → bound.length + rest.length = A →
    RunChain body (stateB A (.target A i) bound) rest (body i (bound ++ rest), 1) := by
  intro rest
  induction rest with
  | nil => intro bound hne _; exact absurd rfl hne
  | cons a rest ih =>
    intro bound _ hlen
    cases rest with
    | nil =>
      have hstep := @stepB_complete body A i bound a (by simpa using hlen)
      exact runChain_single hstep
    | cons b rest2 =>
      have hstep := @stepB_incomplete body A (.target A i) bound a (by simp at hlen; omega)
      have htail := ih (bound ++ [a]) (by simp) (by simp at hlen ⊢; omega)
      have hcomp := runChain_cons hstep htail
      simpa using hcomp

/-- Prefix lemma for Strategy B: any proper prefix of the arguments produces
the corresponding wrapper and executes no target body at all. -/
theorem chainB_take {body : Nat → List Val → Except PyErr Val} {A i : Nat} :
    ∀ (p bound : List Val), bound.length + p.length < A →
    RunChain body (stateB A (.target A i) bound) p
      (.ok (stateB A (.target A i) (bound ++ p)), 0) := by
  intro p
  induction p with
  | nil =>
    intro bound _
    simpa using @runChain_nil body (stateB A (.target A i) bound)
  | cons a rest ih =>
    intro bound h
    have hstep := @stepB_incomplete body A (.target A i) bound a (by simp at h; omega)
    have htail := ih (bound ++ [a]) (by simp at h ⊢; omega)
    have hcomp := runChain_cons hstep htail
    simpa using hcomp

/-- Every Strategy A stage is a `get_one_arg` closure: calling it with two or
more positional values raises the arity `TypeError` at the stage itself. -/
theorem stateA_too_many {body : Nat → List Val → Except PyErr Val} {t : Val}
    {bound : List Val} {a b : Val} {more : List Val} :
    Run body (stateA t bound) (a :: b :: more) (.error (.tooManyArgs "get_one_arg"), 0) :=
  ⟨1, rfl⟩

/-- Calling a Strategy A stage with zero values raises the missing-argument
`TypeError` at the stage itself. -/
theorem stateA_missing {body : Nat → List Val → Except PyErr Val} {t : Val}
    {bound : List Val} :
    Run body (stateA t bound) [] (.error (.missingArgs "get_one_arg"), 0) :=
  ⟨1, rfl⟩

/-- Every Strategy B stage holding at least one argument is a `get_last_arg`
closure: two or more values in one call raise the arity `TypeError`. -/
theorem stateB_cons_too_many {body : Nat → List Val → Except PyErr Val} {A : Nat}
    {t x : Val} {bs : List Val} {a b : Val} {more : List Val} :
    Run body (stateB A t (x :: bs)) (a :: b :: more)
      (.error (.tooManyArgs "get_last_arg"), 0) :=
  ⟨1, rfl⟩

/-- Calling a Strategy B stage holding at least one argument with zero values
raises the missing-argument `TypeError`. -/
theorem stateB_cons_missing {body : Nat → List Val → Except PyErr Val} {A : Nat}
    {t x : Val} {bs : List Val} :
    Run body (stateB A t (x :: bs)) [] (.error (.missingArgs "get_last_arg"), 0) :=
  ⟨1, rfl⟩

/-- For arity at least 2, Strategy B's decoration-time wrapper is the
variadic `func_with_last_applied` closure. -/
theorem isVariadic_curry_tudo {A i : Nat} (h : 2 ≤ A) :
    isVariadic (curry_tudo (.target A i)) = true := by
  show isVariadic (curry_ultimo^[numero_de_parametros (.target A i) - 1] (.target A i)) = true
  have h1 : numero_de_parametros (.target A i) - 1 = (A - 2) + 1 := by
    simp [numero_de_parametros]; omega
  rw [h1, curry_ultimo_iterate_succ]
  rfl

/-- `fact(rec, 0)` returns 1 without calling `rec`. -/
theorem run_fact_zero {body : Nat → List Val → Except PyErr Val} {recf : Val} :
    Run body .fact [recf, .int 0] (.ok (.int 1), 0) :=
  ⟨1, rfl⟩

/-- `fact(rec, m)` for `m ≠ 0` evaluates `rec(m - 1)` and multiplies by `m`. -/
theorem run_fact_step {body : Nat → List Val → Except PyErr Val} {recf : Val}
    {m r : Int} {c : Nat} (hm : m ≠ 0)
    (h : Run body recf [.int (m - 1)] (.ok (.int r), c)) :
    Run body .fact [recf, .int m] (.ok (.int (m * r)), c) := by
  obtain ⟨n, hn⟩ := h
  refine ⟨n + 1, ?_⟩
  simp only [call]
  rw [if_neg hm, hn]

/-- The self-applied `nova_func(fact)` closure computes the factorial: the
recursion of the Y combinator, by induction on the argument. -/
theorem yfact_aux (body : Nat → List Val → Except PyErr Val) : ∀ m : Nat,
    Run body (.nova_func .fact) [.nova_func .fact, .int (m : Int)]
      (.ok (.int (Nat.factorial m : Int)), 0) := by
  intro m
  induction m with
  | zero =>
    rw [run_nova_func]
    simpa using @run_fact_zero body (auto_aplicador (.nova_func .fact))
  | succ k ih =>
    rw [run_nova_func]
    have hm : ((k + 1 : Nat) : Int) ≠ 0 := by push_cast; omega
    have hsub : ((k + 1 : Nat) : Int) - 1 = ((k : Nat) : Int) := by push_cast; ring
    have hrec : Run body (auto_aplicador (.nova_func .fact))
        [.int (((k + 1 : Nat) : Int) - 1)] (.ok (.int (Nat.factorial k : Int)), 0) := by
      rw [hsub]
      rw [show auto_aplicador (.nova_func .fact) = .func_auto_aplicada (.nova_func .fact)
        from rfl]
      rw [run_func_auto_aplicada]
      exact ih
    have hstep := run_fact_step hm hrec
    have hfac : ((k + 1 : Nat) : Int) * (Nat.factorial k : Int)
        = (Nat.factorial (k + 1) : Int) := by
      push_cast [Nat.factorial_succ]; ring
    simpa [hfac] using hstep

/-- C1: for every target function of fixed arity `A ≥ 1` and every argument
sequence on which the target returns a value, supplying the arguments one at
a time to the curried wrapper yields exactly the direct-call result, for both
Strategy A's `curry` and Strategy B's `curry_tudo` (the count 1 records that
the target body ran once). -/
theorem curried_full_application_eq_direct_call
    (body : Nat → List Val → Except PyErr Val) (A i : Nat) (args : List Val) (w : Val)
    (hA : 1 ≤ A) (hlen : args.length = A) (hok : body i args = .ok w) :
    RunChain body (curry (.target A i)) args (.ok w, 1) ∧
    RunChain body (curry_tudo (.target A i)) args (.ok w, 1) := by
  have hne : args ≠ [] := by
    intro habs
    rw [habs] at hlen
    simp at hlen
    omega
  constructor
  · have h := @chainA body A i args [] hne (by simpa using hlen)
    rw [curry_eq_stateA_nil]
    simpa [finishA, hok] using h
  · have h := @chainB body A i args [] hne (by simpa using hlen)
    rw [curry_tudo_eq_stateB_nil]
    simpa [hok] using h

/-- C1 witness: the 4-ary adder of the source's own assertions,
`h(1)(2)(3)(4) == 10`, under both strategies. -/
theorem curried_full_application_eq_direct_call_witness :
    (1 ≤ 4 ∧ [Val.int 1, Val.int 2, Val.int 3, Val.int 4].length = 4 ∧
      bodyAdd4 0 [Val.int 1, Val.int 2, Val.int 3, Val.int 4] = .ok (.int 10)) ∧
    (RunChain bodyAdd4 (curry (.target 4 0))
        [Val.int 1, Val.int 2, Val.int 3, Val.int 4] (.ok (.int 10), 1) ∧
      RunChain bodyAdd4 (curry_tudo (.target 4 0))
        [Val.int 1, Val.int 2, Val.int 3, Val.int 4] (.ok (.int 10), 1)) :=
  ⟨⟨by omega, rfl, rfl⟩,
    curried_full_application_eq_direct_call bodyAdd4 4 0
      [Val.int 1, Val.int 2, Val.int 3, Val.int 4] (.int 10) (by omega) rfl rfl⟩

/-- C2 counterexample: a 1-ary target whose body itself raises a `TypeError`
(a wrong value type, the claim's own first example of a failure that should
propagate).  Strategy A's `except TypeError` catches it and returns a further
curry wrapper — the count 1 shows the body ran and raised — instead of
passing the failure through to the caller. -/
theorem curry_catches_target_typeerror :
    call bodyTypeErr 3 (curry (.target 1 0)) [.int 0] =
      some (.ok (.get_one_arg (.get_other_args (.target 1 0) (.int 0))), 1) := rfl

/-- C2 (amended): every failure that is not a `TypeError` propagates
unchanged through Strategy A's wrapper chain; a `TypeError` raised by the
fully-applied target's own body is intercepted by Strategy A and converted
into continued currying.  Strategy B's wrapper catches nothing: every failure
of the fully-applied target propagates unchanged. -/
theorem non_typeerror_failures_propagate
    (body : Nat → List Val → Except PyErr Val) (A i : Nat) (args : List Val) (e : PyErr)
    (hA : 1 ≤ A) (hlen : args.length = A) (herr : body i args = .error e) :
    (e.isTypeError = false → RunChain body (curry (.target A i)) args (.error e, 1)) ∧
    (e.isTypeError = true →
      RunChain body (curry (.target A i)) args
        (.ok (.get_one_arg (boundClos (.target A i) args)), 1)) ∧
    RunChain body (curry_tudo (.target A i)) args (.error e, 1) := by
  have hne : args ≠ [] := by
    intro habs
    rw [habs] at hlen
    simp at hlen
    omega
  have hca := @chainA body A i args [] hne (by simpa using hlen)
  have hcb := @chainB body A i args [] hne (by simpa using hlen)
  refine ⟨fun hf => ?_, fun ht => ?_, ?_⟩
  · rw [curry_eq_stateA_nil]
    simpa [finishA, herr, hf] using hca
  · rw [curry_eq_stateA_nil]
    simpa [finishA, herr, ht, stateA, curry] using hca
  · rw [curry_tudo_eq_stateB_nil]
    simpa [herr] using hcb

/-- C2 (amended) witness: a 1-ary target raising a non-TypeError exception;
both strategies re-raise it unchanged at the final application. -/
theorem non_typeerror_failures_propagate_witness :
    (1 ≤ 1 ∧ [Val.int 0].length = 1 ∧ bodyOtherErr 0 [Val.int 0] = .error (.otherError 7)) ∧
    (((PyErr.otherError 7).isTypeError = false →
        RunChain bodyOtherErr (curry (.target 1 0)) [Val.int 0] (.error (.otherError 7), 1)) ∧
      ((PyErr.otherError 7).isTypeError = true →
        RunChain bodyOtherErr (curry (.target 1 0)) [Val.int 0]
          (.ok (.get_one_arg (boundClos (.target 1 0) [Val.int 0])), 1)) ∧
      RunChain bodyOtherErr (curry_tudo (.target 1 0)) [Val.int 0] (.error (.otherError 7), 1)) :=
  ⟨⟨by omega, rfl, rfl⟩,
    non_typeerror_failures_propagate bodyOtherErr 1 0 [Val.int 0] (.otherError 7)
      (by omega) rfl rfl⟩

/-- C3 counterexample: Strategy B's decoration-time wrapper for a 4-ary
target is the variadic `func_with_last_applied` closure: one call carrying
two values is accepted without error and returns a closure capturing both,
so the very first stage does not accept exactly one input per call. -/
theorem curry_tudo_first_stage_accepts_two_args :
    call bodyAdd4 2 (curry_tudo (.target 4 0)) [.int 1, .int 2] =
      some (.ok (.get_last_arg (curry_ultimo (curry_ultimo (.target 4 0)))
        [.int 1, .int 2]), 0) ∧
    isVariadic (curry_tudo (.target 4 0)) = true :=
  ⟨rfl, rfl⟩

/-- C3 (amended): Strategy A's wrapper is a unary callable at every stage,
including the one returned at decoration time; Strategy B's wrapper is unary
at every stage reached after at least one argument, and its decoration-time
value is the target itself when `A = 1` but a variadic closure when
`A ≥ 2`. -/
theorem wrapper_stages_unary
    (body : Nat → List Val → Except PyErr Val) (A i : Nat) (p : List Val)
    (hlt : p.length < A) :
    (RunChain body (curry (.target A i)) p (.ok (stateA (.target A i) p), 0) ∧
      numero_de_parametros (stateA (.target A i) p) = 1 ∧
      isVariadic (stateA (.target A i) p) = false) ∧
    (1 ≤ p.length →
      RunChain body (curry_tudo (.target A i)) p (.ok (stateB A (.target A i) p), 0) ∧
      numero_de_parametros (stateB A (.target A i) p) = 1 ∧
      isVariadic (stateB A (.target A i) p) = false) ∧
    (A = 1 → curry_tudo (.target A i) = .target A i) ∧
    (2 ≤ A → isVariadic (curry_tudo (.target A i)) = true) := by
  refine ⟨⟨?_, rfl, rfl⟩, fun hp => ⟨?_, ?_, ?_⟩, fun h1 => ?_, fun h2 => isVariadic_curry_tudo h2⟩
  · rw [curry_eq_stateA_nil]
    simpa using @chainA_take body A i p [] (by simpa using hlt)
  · rw [curry_tudo_eq_stateB_nil]
    simpa using @chainB_take body A i p [] (by simpa using hlt)
  · cases p with
    | nil => simp at hp
    | cons x bs => rfl
  · cases p with
    | nil => simp at hp
    | cons x bs => rfl
  · show curry_ultimo^[numero_de_parametros (.target A i) - 1] (.target A i) = .target A i
    have h0 : numero_de_parametros (.target A i) - 1 = 0 := by
      simp [numero_de_parametros, h1]
    rw [h0]
    rfl

/-- C3 (amended) witness: the 4-ary adder after one argument: both
strategies' stages are unary closures. -/
theorem wrapper_stages_unary_witness :
    ([Val.int 1].length < 4) ∧
    ((RunChain bodyAdd4 (curry (.target 4 0)) [Val.int 1]
        (.ok (stateA (.target 4 0) [Val.int 1]), 0) ∧
      numero_de_parametros (stateA (.target 4 0) [Val.int 1]) = 1 ∧
      isVariadic (stateA (.target 4 0) [Val.int 1]) = false) ∧
    (1 ≤ [Val.int 1].length →
      RunChain bodyAdd4 (curry_tudo (.target 4 0)) [Val.int 1]
        (.ok (stateB 4 (.target 4 0) [Val.int 1]), 0) ∧
      numero_de_parametros (stateB 4 (.target 4 0) [Val.int 1]) = 1 ∧
      isVariadic (stateB 4 (.target 4 0) [Val.int 1]) = false) ∧
    (4 = 1 → curry_tudo (.target 4 0) = .target 4 0) ∧
    (2 ≤ 4 → isVariadic (curry_tudo (.target 4 0)) = true)) :=
  ⟨by decide, wrapper_stages_unary bodyAdd4 4 0 [Val.int 1] (by decide)⟩

/-- C4: state-machine invariant of the wrapper chain, for both strategies: a
wrapper holding `k` bound arguments (`k < A`), invoked with exactly one new
value, yields a new unary wrapper holding `k + 1` bound arguments when
`k + 1 < A`, and the target's result when `k + 1 = A` (for argument sequences
on which the target returns a value). -/
theorem wrapper_step_invariant
    (body : Nat → List Val → Except PyErr Val) (A i : Nat) (bound : List Val) (a : Val)
    (hk : bound.length < A) :
    (bound.length + 1 < A →
      (Run body (stateA (.target A i) bound) [a]
          (.ok (stateA (.target A i) (bound ++ [a])), 0) ∧
        Run body (stateB A (.target A i) bound) [a]
          (.ok (stateB A (.target A i) (bound ++ [a])), 0)) ∧
      numero_de_parametros (stateA (.target A i) (bound ++ [a])) = 1 ∧
      numero_de_parametros (stateB A (.target A i) (bound ++ [a])) = 1) ∧
    (bound.length + 1 = A → ∀ w, body i (bound ++ [a]) = .ok w →
      Run body (stateA (.target A i) bound) [a] (.ok w, 1) ∧
      Run body (stateB A (.target A i) bound) [a] (.ok w, 1)) := by
  constructor
  · intro hlt
    refine ⟨⟨stepA_incomplete hlt, stepB_incomplete hlt⟩, rfl, ?_⟩
    cases bound with
    | nil => rfl
    | cons x bs => rfl
  · intro heq w hw
    have h1 := @stepA_complete body A i bound a heq
    have h2 := @stepB_complete body A i bound a heq
    exact ⟨by simpa [finishA, hw] using h1, by simpa [hw] using h2⟩

/-- C4 witness: the 4-ary adder with two bound arguments: one more argument
yields a unary wrapper with three bound arguments; with three bound
arguments, the fourth argument yields the sum 10, under both strategies. -/
theorem wrapper_step_invariant_witness :
    ([Val.int 1, Val.int 2].length < 4 ∧ [Val.int 1, Val.int 2, Val.int 3].length < 4 ∧
      bodyAdd4 0 [Val.int 1, Val.int 2, Val.int 3, Val.int 4] = .ok (.int 10)) ∧
    (([Val.int 1, Val.int 2].length + 1 < 4 →
      (Run bodyAdd4 (stateA (.target 4 0) [Val.int 1, Val.int 2]) [Val.int 3]
          (.ok (stateA (.target 4 0) [Val.int 1, Val.int 2, Val.int 3]), 0) ∧
        Run bodyAdd4 (stateB 4 (.target 4 0) [Val.int 1, Val.int 2]) [Val.int 3]
          (.ok (stateB 4 (.target 4 0) [Val.int 1, Val.int 2, Val.int 3]), 0)) ∧
      numero_de_parametros (stateA (.target 4 0) [Val.int 1, Val.int 2, Val.int 3]) = 1 ∧
      numero_de_parametros (stateB 4 (.target 4 0) [Val.int 1, Val.int 2, Val.int 3]) = 1) ∧
    ([Val.int 1, Val.int 2, Val.int 3].length + 1 = 4 →
      ∀ w, bodyAdd4 0 [Val.int 1, Val.int 2, Val.int 3, Val.int 4] = .ok w →
      Run bodyAdd4 (stateA (.target 4 0) [Val.int 1, Val.int 2, Val.int 3]) [Val.int 4]
        (.ok w, 1) ∧
      Run bodyAdd4 (stateB 4 (.target 4 0) [Val.int 1, Val.int 2, Val.int 3]) [Val.int 4]
        (.ok w, 1))) :=
  ⟨⟨by decide, by decide, rfl⟩,
    (wrapper_step_invariant bodyAdd4 4 0 [Val.int 1, Val.int 2] (Val.int 3) (by decide)).1,
    (wrapper_step_invariant bodyAdd4 4 0 [Val.int 1, Val.int 2, Val.int 3] (Val.int 4)
      (by decide)).2⟩

/-- C5: supplying two (or more) values in one call to an intermediate unary
stage raises the too-many-arguments `TypeError` at the stage itself, never
silently accepting or dropping the extra value: every Strategy A stage and
every Strategy B stage holding at least one argument is such a unary stage. -/
theorem intermediate_stage_too_many_args
    (body : Nat → List Val → Except PyErr Val) (A i : Nat) (p : List Val) (a b : Val)
    (more : List Val) (hp : p.length < A) :
    (RunChain body (curry (.target A i)) p (.ok (stateA (.target A i) p), 0) ∧
      Run body (stateA (.target A i) p) (a :: b :: more)
        (.error (.tooManyArgs "get_one_arg"), 0)) ∧
    (1 ≤ p.length →
      RunChain body (curry_tudo (.target A i)) p (.ok (stateB A (.target A i) p), 0) ∧
      Run body (stateB A (.target A i) p) (a :: b :: more)
        (.error (.tooManyArgs "get_last_arg"), 0)) := by
  refine ⟨⟨?_, stateA_too_many⟩, fun hp1 => ⟨?_, ?_⟩⟩
  · rw [curry_eq_stateA_nil]
    simpa using @chainA_take body A i p [] (by simpa using hp)
  · rw [curry_tudo_eq_stateB_nil]
    simpa using @chainB_take body A i p [] (by simpa using hp)
  · cases p with
    | nil => simp at hp1
    | cons x bs => exact stateB_cons_too_many

/-- C5 witness: the curried 4-ary adder, `g(1)(2)(3,4)`, raises the
too-many-arguments `TypeError` under both strategies. -/
theorem intermediate_stage_too_many_args_witness :
    ([Val.int 1, Val.int 2].length < 4) ∧
    ((RunChain bodyAdd4 (curry (.target 4 0)) [Val.int 1, Val.int 2]
        (.ok (stateA (.target 4 0) [Val.int 1, Val.int 2]), 0) ∧
      Run bodyAdd4 (stateA (.target 4 0) [Val.int 1, Val.int 2]) [Val.int 3, Val.int 4]
        (.error (.tooManyArgs "get_one_arg"), 0)) ∧
    (1 ≤ [Val.int 1, Val.int 2].length →
      RunChain bodyAdd4 (curry_tudo (.target 4 0)) [Val.int 1, Val.int 2]
        (.ok (stateB 4 (.target 4 0) [Val.int 1, Val.int 2]), 0) ∧
      Run bodyAdd4 (stateB 4 (.target 4 0) [Val.int 1, Val.int 2]) [Val.int 3, Val.int 4]
        (.error (.tooManyArgs "get_last_arg"), 0))) :=
  ⟨by decide,
    intermediate_stage_too_many_args bodyAdd4 4 0 [Val.int 1, Val.int 2]
      (Val.int 3) (Val.int 4) [] (by decide)⟩

/-- C6 counterexample: Strategy B's decoration-time wrapper for the 4-ary
adder accepts a call with zero values and returns a closure capturing the
empty tuple instead of raising a missing-argument `TypeError`, so the claim
fails for the very first stage of `curry_tudo`. -/
theorem curry_tudo_first_stage_accepts_zero_args :
    call bodyAdd4 2 (curry_tudo (.target 4 0)) [] =
      some (.ok (.get_last_arg (curry_ultimo (curry_ultimo (.target 4 0))) []), 0) := rfl

/-- C6 (amended): supplying zero values raises the missing-argument
`TypeError` at every Strategy A stage and at every Strategy B stage holding
at least one argument; Strategy B's decoration-time wrapper (for `A ≥ 2`)
accepts zero values. -/
theorem zero_args_raise_missing_argument
    (body : Nat → List Val → Except PyErr Val) (A i : Nat) (p : List Val)
    (hp : p.length < A) :
    (RunChain body (curry (.target A i)) p (.ok (stateA (.target A i) p), 0) ∧
      Run body (stateA (.target A i) p) [] (.error (.missingArgs "get_one_arg"), 0)) ∧
    (1 ≤ p.length →
      RunChain body (curry_tudo (.target A i)) p (.ok (stateB A (.target A i) p), 0) ∧
      Run body (stateB A (.target A i) p) [] (.error (.missingArgs "get_last_arg"), 0)) := by
  refine ⟨⟨?_, stateA_missing⟩, fun hp1 => ⟨?_, ?_⟩⟩
  · rw [curry_eq_stateA_nil]
    simpa using @chainA_take body A i p [] (by simpa using hp)
  · rw [curry_tudo_eq_stateB_nil]
    simpa using @chainB_take body A i p [] (by simpa using hp)
  · cases p with
    | nil => simp at hp1
    | cons x bs => exact stateB_cons_missing

/-- C6 (amended) witness: the curried 4-ary adder, `g(1)(2)()`, raises the
missing-argument `TypeError` under both strategies. -/
theorem zero_args_raise_missing_argument_witness :
    ([Val.int 1, Val.int 2].length < 4) ∧
    ((RunChain bodyAdd4 (curry (.target 4 0)) [Val.int 1, Val.int 2]
        (.ok (stateA (.target 4 0) [Val.int 1, Val.int 2]), 0) ∧
      Run bodyAdd4 (stateA (.target 4 0) [Val.int 1, Val.int 2]) []
        (.error (.missingArgs "get_one_arg"), 0)) ∧
    (1 ≤ [Val.int 1, Val.int 2].length →
      RunChain bodyAdd4 (curry_tudo (.target 4 0)) [Val.int 1, Val.int 2]
        (.ok (stateB 4 (.target 4 0) [Val.int 1, Val.int 2]), 0) ∧
      Run bodyAdd4 (stateB 4 (.target 4 0) [Val.int 1, Val.int 2]) []
        (.error (.missingArgs "get_last_arg"), 0))) :=
  ⟨by decide, zero_args_raise_missing_argument bodyAdd4 4 0 [Val.int 1, Val.int 2] (by decide)⟩

/-- C7: Strategy B applies the curry-last-argument transformation exactly
`A - 1` times (with `A` read off by introspection), so decorating a function
whose declared parameter count is 1 performs zero re-wrapping applications
and returns the function itself unchanged. -/
theorem curry_tudo_unary_noop (f : Val) :
    curry_tudo f = curry_ultimo^[numero_de_parametros f - 1] f ∧
    (numero_de_parametros f = 1 → curry_tudo f = f) := by
  refine ⟨rfl, fun h1 => ?_⟩
  show curry_ultimo^[numero_de_parametros f - 1] f = f
  rw [h1]
  rfl

/-- C7 witness: a unary target is returned unchanged by `curry_tudo`. -/
theorem curry_tudo_unary_noop_witness :
    (curry_tudo (.target 1 0) = curry_ultimo^[numero_de_parametros (.target 1 0) - 1]
        (.target 1 0) ∧
      (numero_de_parametros (.target 1 0) = 1 → curry_tudo (.target 1 0) = .target 1 0)) ∧
    curry_tudo (.target 1 0) = .target 1 0 :=
  ⟨curry_tudo_unary_noop (.target 1 0), (curry_tudo_unary_noop (.target 1 0)).2 rfl⟩

/-- C8: the Y-combinator decorator enables recursion without named
self-reference: `decorador_y` applied to the two-parameter factorial
functional yields a unary function computing the factorial of every natural
number (count 0: no oracle target is involved, the recursion is carried
entirely by self-application). -/
theorem decorador_y_factorial (body : Nat → List Val → Except PyErr Val) (m : Nat) :
    Run body (decorador_y .fact) [.int (m : Int)]
      (.ok (.int (Nat.factorial m : Int)), 0) ∧
    numero_de_parametros (decorador_y .fact) = 1 := by
  refine ⟨?_, rfl⟩
  rw [show decorador_y .fact = .func_auto_aplicada (.nova_func .fact) from rfl]
  rw [run_func_auto_aplicada]
  exact yfact_aux body m

/-- C9: frame property of the wrapper layer: feeding a target of arity
`A ≥ 1` its arguments one at a time executes the target body exactly once,
at the `A`-th application; every proper prefix of the chain executes it zero
times (in particular Strategy A's trial invocations are rejected on arity
before the body runs). -/
theorem target_body_runs_exactly_once
    (body : Nat → List Val → Except PyErr Val) (A i : Nat) (args : List Val)
    (hA : 1 ≤ A) (hlen : args.length = A) :
    (∀ k, k < A →
      RunChain body (curry (.target A i)) (args.take k)
        (.ok (stateA (.target A i) (args.take k)), 0) ∧
      RunChain body (curry_tudo (.target A i)) (args.take k)
        (.ok (stateB A (.target A i) (args.take k)), 0)) ∧
    RunChain body (curry (.target A i)) args
      (finishA (body i args) (stateA (.target A i) args), 1) ∧
    RunChain body (curry_tudo (.target A i)) args (body i args, 1) := by
  have hne : args ≠ [] := by
    intro habs
    rw [habs] at hlen
    simp at hlen
    omega
  refine ⟨fun k hk => ⟨?_, ?_⟩, ?_, ?_⟩
  · rw [curry_eq_stateA_nil]
    simpa using @chainA_take body A i (args.take k) []
      (by simp [hlen]; omega)
  · rw [curry_tudo_eq_stateB_nil]
    simpa using @chainB_take body A i (args.take k) []
      (by simp [hlen]; omega)
  · rw [curry_eq_stateA_nil]
    simpa using @chainA body A i args [] hne (by simpa using hlen)
  · rw [curry_tudo_eq_stateB_nil]
    simpa using @chainB body A i args [] hne (by simpa using hlen)

/-- C9 witness: the 4-ary adder: both strategies execute the body exactly
once on the full chain, and zero times on the three-argument prefix. -/
theorem target_body_runs_exactly_once_witness :
    (1 ≤ 4 ∧ [Val.int 1, Val.int 2, Val.int 3, Val.int 4].length = 4) ∧
    ((∀ k, k < 4 →
      RunChain bodyAdd4 (curry (.target 4 0))
        ([Val.int 1, Val.int 2, Val.int 3, Val.int 4].take k)
        (.ok (stateA (.target 4 0) ([Val.int 1, Val.int 2, Val.int 3, Val.int 4].take k)), 0) ∧
      RunChain bodyAdd4 (curry_tudo (.target 4 0))
        ([Val.int 1, Val.int 2, Val.int 3, Val.int 4].take k)
        (.ok (stateB 4 (.target 4 0)
          ([Val.int 1, Val.int 2, Val.int 3, Val.int 4].take k)), 0)) ∧
    RunChain bodyAdd4 (curry (.target 4 0)) [Val.int 1, Val.int 2, Val.int 3, Val.int 4]
      (finishA (bodyAdd4 0 [Val.int 1, Val.int 2, Val.int 3, Val.int 4])
        (stateA (.target 4 0) [Val.int 1, Val.int 2, Val.int 3, Val.int 4]), 1) ∧
    RunChain bodyAdd4 (curry_tudo (.target 4 0)) [Val.int 1, Val.int 2, Val.int 3, Val.int 4]
      (bodyAdd4 0 [Val.int 1, Val.int 2, Val.int 3, Val.int 4], 1)) :=
  ⟨⟨by omega, rfl⟩,
    target_body_runs_exactly_once bodyAdd4 4 0 [Val.int 1, Val.int 2, Val.int 3, Val.int 4]
      (by omega) rfl⟩

/-- C10: unfolding laws of the Y decorator: `auto_aplicador(g)(x)` evaluates
as `g(g, x)`; `auto_aplica_func_interna(F)(g, t)` evaluates as
`F(auto_aplicador(g), t)`; and `decorador_y(F)(t)` evaluates as `F(r, t)`
where `r = decorador_y(F)` is itself a unary function — so `r(u)` evaluates
as `decorador_y(F)(u)` for every `u` by the very same equation. -/
theorem decorador_y_unfolding (body : Nat → List Val → Except PyErr Val) :
    (∀ (g x : Val) (r : Except PyErr Val × Nat),
      Run body (auto_aplicador g) [x] r ↔ Run body g [g, x] r) ∧
    (∀ (F g t : Val) (r : Except PyErr Val × Nat),
      Run body (auto_aplica_func_interna F) [g, t] r ↔
        Run body F [auto_aplicador g, t] r) ∧
    (∀ (F t : Val) (r : Except PyErr Val × Nat),
      Run body (decorador_y F) [t] r ↔ Run body F [decorador_y F, t] r) ∧
    (∀ F : Val, numero_de_parametros (decorador_y F) = 1) := by
  refine ⟨fun g x r => run_func_auto_aplicada, fun F g t r => run_nova_func,
    fun F t r => ?_, fun F => rfl⟩
  rw [show decorador_y F = .func_auto_aplicada (.nova_func F) from rfl]
  rw [run_func_auto_aplicada, run_nova_func]
  rfl
